import Mathlib

/-!
# Verification of the whisper transcription service

Shallow embedding of the chunked streaming transcription pipeline and the
upload transcription service (`src/main.py`, `src/realtime_transcription.py`,
`src/config.py`) together with proofs about the frozen claims.

Modelling conventions:
* Python machine floats appear only as opaque numeric payloads (segment start
  and end times, probabilities); no claim depends on arithmetic on them, so
  they are embedded as `Int` placeholders carried around unchanged.
* The faster-whisper inference engine is an external collaborator; it is a
  parameter of type `Engine` (path and options in, segments/info or an
  exception message out).
* Fallible OS operations (`os.unlink`, `os.remove`) are described by a
  parameter `String → Option String`: `none` means the deletion succeeds,
  `some msg` means it raises `OSError(msg)`.
* Observable side effects (temp-file creation, engine invocation, deletion
  attempts) are recorded in an event list so that "before any temporary file
  is created" style claims can be stated.
-/

namespace Whisper

/-! ## Configuration (`src/config.py`, development profile, default env) -/

/-- `Config.MAX_FILE_SIZE = int(os.getenv("MAX_FILE_SIZE", "100")) * 1024 * 1024`. -/
def MAX_FILE_SIZE : Nat := 100 * 1024 * 1024

/-- `Config.DEFAULT_BEAM_SIZE = 1`. -/
def DEFAULT_BEAM_SIZE : Nat := 1

/-- `Config.DEFAULT_VAD_FILTER = True`. -/
def DEFAULT_VAD_FILTER : Bool := true

/-- `Config.DEFAULT_WORD_TIMESTAMPS = False`. -/
def DEFAULT_WORD_TIMESTAMPS : Bool := false

/-- `Config.DEFAULT_LANGUAGE = os.getenv("DEFAULT_LANGUAGE", "pt")`. -/
def DEFAULT_LANGUAGE : String := "pt"

/-! ## `os.path.splitext` (CPython `posixpath` / `genericpath._splitext`)

`_splitext(p, '/', None, '.')` finds the last `'.'` after the last `'/'`;
leading dots of the basename do not count as an extension separator.  We only
need the extension component (`[1]` in the Python code). -/

/-- Index of the last occurrence of `c` in `l`, or `-1` when absent
(CPython `str.rfind`). -/
def rfind (l : List Char) (c : Char) : Int :=
  match l with
  | [] => -1
  | a :: as =>
    let r := rfind as c
    if r ≥ 0 then r + 1
    else if a = c then 0 else -1

/-- The `while filenameIndex < dotIndex` scan of `genericpath._splitext`:
returns `true` when some character at an index in `[filenameIndex, dotIndex)`
differs from `'.'` (so the candidate dot really separates an extension). -/
def ext_scan (p : List Char) (filenameIndex dotIndex : Nat) : Bool :=
  ((p.drop filenameIndex).take (dotIndex - filenameIndex)).any fun c => c ≠ '.'

/-- The extension component of `os.path.splitext(p)`: the suffix of `p`
starting at the last dot, or `[]` when no extension is extracted. -/
def splitext_ext (p : List Char) : List Char :=
  let sepIndex := rfind p '/'
  let dotIndex := rfind p '.'
  if sepIndex < dotIndex then
    if ext_scan p (sepIndex + 1).toNat dotIndex.toNat then p.drop dotIndex.toNat
    else []
  else []

/-- Python `str.lower()` restricted to the ASCII extensions this service
compares: character-wise lowering. -/
def lower (s : String) : String := String.mk (s.data.map Char.toLower)

/-- Python `str.strip()`: drop leading and trailing whitespace. -/
def strip (s : String) : String :=
  String.mk (((s.data.dropWhile Char.isWhitespace).reverse.dropWhile
    Char.isWhitespace).reverse)

/-! ## Data model of a transcription -/

/-- One per-word timing entry (`word.start/end/word/probability`); times and
probabilities are opaque numeric payloads. -/
structure WordInfo where
  start : Int
  end_ : Int
  word : String
  probability : Int
deriving DecidableEq

/-- One engine segment (`segment.start/end/text/words`). -/
structure Seg where
  start : Int
  end_ : Int
  text : String
  words : List WordInfo
deriving DecidableEq

/-- The engine's `info` value: detected language and its confidence. -/
structure TransInfo where
  language : String
  language_probability : Int
deriving DecidableEq

/-- The pair `(segments, info)` returned by `model.transcribe`. -/
structure EngineOut where
  segments : List Seg
  info : TransInfo
deriving DecidableEq

/-- External inference engine: arguments are the audio path, `beam_size`,
`language`, `word_timestamps`, `vad_filter`; an exception is modelled as
`Except.error msg`. -/
def Engine : Type := String → Nat → Option String → Bool → Bool → Except String EngineOut

/-- One entry of the `segments` list assembled by `transcribe_audio`:
`words` is present exactly when `word_timestamps` was requested. -/
structure SegmentDict where
  start : Int
  end_ : Int
  text : String
  words : Option (List WordInfo)
deriving DecidableEq

/-- The `TranscriptionResponse` pydantic model of `src/main.py`. -/
structure TranscriptionResponse where
  text : String
  language : String
  language_probability : Int
  segments : List SegmentDict
deriving DecidableEq

/-- A raised `HTTPException(status_code, detail)`. -/
structure HTTPError where
  status_code : Nat
  detail : String
deriving DecidableEq

/-- `str(e)` for a `fastapi.HTTPException` (Starlette renders
`f"{status_code}: {detail}"`). -/
def str_of_exc (e : HTTPError) : String :=
  toString e.status_code ++ ": " ++ e.detail

/-- An uploaded file: its declared filename and payload byte count.  Only the
name is inspected by the handler; the bytes flow unexamined into the temp
file, so the payload is represented by its size. -/
structure UploadFile where
  filename : String
  size : Nat
deriving DecidableEq

/-- Observable resource events of one request or one streamed chunk. -/
inductive Ev where
  | tempCreate (path : String)
  | engineCall (path : String) (beam_size : Nat) (language : Option String)
      (word_timestamps vad_filter : Bool)
  | tempDelete (path : String) (ok : Bool)
deriving DecidableEq

/-- The temp-file paths created in an event list. -/
def tempPaths (evs : List Ev) : List String :=
  evs.filterMap fun e =>
    match e with
    | Ev.tempCreate p => some p
    | _ => none

/-- The option tuples of the engine invocations in an event list. -/
def engineCalls (evs : List Ev) : List (Nat × Option String × Bool × Bool) :=
  evs.filterMap fun e =>
    match e with
    | Ev.engineCall _ b l w v => some (b, l, w, v)
    | _ => none

/-! ## `POST /transcribe` (`transcribe_audio`, `src/main.py` lines 106–201)

`ntf` models one call to `tempfile.NamedTemporaryFile(delete=False,
suffix=file_extension)`: given the suffix it yields the fresh path.
`unlink_fails` models `os.unlink`.  The handler:
1. rejects an empty filename with 400 "Nenhum arquivo enviado";
2. rejects an extension outside the allow-list with 400 naming the formats;
3. writes the payload to the temp file, invokes the engine, assembles the
   response, and unlinks the temp file; any exception inside the `try` is
   answered with 500 `"Erro na transcrição: " + str(e)` after a swallowed
   unlink attempt.
Note: no branch compares `file.size` against `MAX_FILE_SIZE`. -/

def allowed_extensions : List String := [".mp3", ".wav", ".m4a", ".ogg", ".flac", ".aac"]

def transcribe_audio (engine : Engine) (unlink_fails : String → Option String)
    (ntf : String → String) (file : UploadFile)
    (beam_size : Nat) (language : Option String)
    (word_timestamps : Bool) (vad_filter : Bool) :
    Except HTTPError TranscriptionResponse × List Ev :=
  if file.filename = "" then
    (Except.error ⟨400, "Nenhum arquivo enviado"⟩, [])
  else
    let file_extension := lower (String.mk (splitext_ext file.filename.data))
    if allowed_extensions.contains file_extension = false then
      (Except.error ⟨400, "Formato de arquivo não suportado. Formatos aceitos: " ++
          String.intercalate ", " allowed_extensions⟩, [])
    else
      let temp_file_path := ntf file_extension
      let evs := [Ev.tempCreate temp_file_path,
                  Ev.engineCall temp_file_path beam_size language word_timestamps vad_filter]
      match engine temp_file_path beam_size language word_timestamps vad_filter with
      | Except.error e =>
        -- generic handler: swallowed unlink attempt, then HTTP 500 with str(e)
        (Except.error ⟨500, "Erro na transcrição: " ++ e⟩,
         evs ++ [Ev.tempDelete temp_file_path (unlink_fails temp_file_path).isNone])
      | Except.ok out =>
        let segments_list := out.segments.map fun s =>
          SegmentDict.mk s.start s.end_ s.text (if word_timestamps then some s.words else none)
        let full_text := out.segments.foldl (fun acc s => acc ++ s.text) ""
        match unlink_fails temp_file_path with
        | some msg =>
          -- the success-path `os.unlink` raised; the generic handler retries
          -- the unlink (swallowed) and answers 500 with str(e) of the OSError
          (Except.error ⟨500, "Erro na transcrição: " ++ msg⟩,
           evs ++ [Ev.tempDelete temp_file_path false, Ev.tempDelete temp_file_path false])
        | none =>
          (Except.ok ⟨strip full_text, out.info.language, out.info.language_probability,
              segments_list⟩,
           evs ++ [Ev.tempDelete temp_file_path true])

/-! ## `POST /transcribe-batch` (`transcribe_batch`, `src/main.py` lines 203–228) -/

/-- One element of the batch `results` list. -/
structure BatchItem where
  filename : String
  success : Bool
  transcription : Option TranscriptionResponse
  error : Option String
deriving DecidableEq

/-- The per-file body of the `for file in files` loop: `transcribe_audio`
is awaited with its Python defaults (`beam_size=5, language=None,
word_timestamps=False, vad_filter=True`); an exception becomes a
`success=False` entry with `str(e)`.  `i` indexes the fresh temp name of this
call. -/
def batch_item (engine : Engine) (unlink_fails : String → Option String)
    (ntf : Nat → String → String) (i : Nat) (file : UploadFile) :
    BatchItem × List Ev :=
  match transcribe_audio engine unlink_fails (ntf i) file 5 none false true with
  | (Except.ok result, evs) => (⟨file.filename, true, some result, none⟩, evs)
  | (Except.error e, evs) => (⟨file.filename, false, none, some (str_of_exc e)⟩, evs)

/-- The batch endpoint: collects one `BatchItem` per file, in order, never
propagating a per-file exception. -/
def transcribe_batch (engine : Engine) (unlink_fails : String → Option String)
    (ntf : Nat → String → String) (files : List UploadFile) :
    List BatchItem × List Ev :=
  (List.enumFrom 0 files).foldl
    (fun acc p =>
      (acc.1 ++ [(batch_item engine unlink_fails ntf p.1 p.2).1],
       acc.2 ++ (batch_item engine unlink_fails ntf p.1 p.2).2))
    ([], [])

/-- Multipart form fields that could accompany a request. -/
structure FormFields where
  beam_size : Option Nat
  language : Option String
  word_timestamps : Option Bool
  vad_filter : Option Bool
deriving DecidableEq

/-- The batch route binds only `files: List[UploadFile]`; any other form
fields of the request are not declared in the handler signature and are
dropped by the routing layer before the handler body runs. -/
def transcribe_batch_route (engine : Engine) (unlink_fails : String → Option String)
    (ntf : Nat → String → String) (_form : FormFields) (files : List UploadFile) :
    List BatchItem × List Ev :=
  transcribe_batch engine unlink_fails ntf files

/-! ## Live pipeline constants (`RealTimeTranscriber.__init__`) -/

/-- `self.RATE = 16000`. -/
def RATE : Nat := 16000

/-- `self.CHUNK = 1024` (frames per device read). -/
def CHUNK : Nat := 1024

/-- `self.RECORD_SECONDS = 3`. -/
def RECORD_SECONDS : Nat := 3

/-- `frames_per_chunk = int(self.RATE / self.CHUNK * self.RECORD_SECONDS)`.
`RATE / CHUNK = 15.625` is exact in binary floating point (the divisor is a
power of two), so the Python expression equals `floor(RATE * RECORD_SECONDS /
CHUNK)`, here `46`. -/
def frames_per_chunk : Nat := RATE * RECORD_SECONDS / CHUNK

/-- Modelled from the spec sentence of the claim: the threshold
`ceil(sampleRate / frameSize * chunkSeconds)`, to be compared with the
source's `frames_per_chunk`. -/
def framesPerChunkSpecCeil : Nat := (RATE * RECORD_SECONDS + (CHUNK - 1)) / CHUNK

/-! ## Chunk assembly (`RealTimeTranscriber._record_audio`, lines 101–123)

A frame is the byte buffer of one `stream.read(self.CHUNK)`, modelled as an
opaque `Nat` payload.  The loop body appends the frame, bumps the counter,
and on `chunk_count >= frames_per_chunk` pushes a copy of the buffer onto the
queue and resets buffer and counter. -/

/-- The accumulator state of `_record_audio`: the in-progress `frames`
buffer, its `chunk_count`, and the chunks pushed onto `audio_queue` so far. -/
structure RecState where
  frames : List Nat
  chunk_count : Nat
  emitted : List (List Nat)
deriving DecidableEq

/-- One iteration of the `while self.is_recording` body on a freshly read
frame `data`. -/
def recordStep (fpc : Nat) (s : RecState) (data : Nat) : RecState :=
  let frames := s.frames ++ [data]
  let chunk_count := s.chunk_count + 1
  if chunk_count ≥ fpc then
    { frames := [], chunk_count := 0, emitted := s.emitted ++ [frames] }
  else
    { frames := frames, chunk_count := chunk_count, emitted := s.emitted }

/-- Feeding a sequence of frames through the assembler. -/
def recordFeed (fpc : Nat) (s : RecState) (ds : List Nat) : RecState :=
  ds.foldl (recordStep fpc) s

/-! ## Streaming worker, one chunk (`_transcribe_audio` body, lines 132–172)

`now` is `int(time.time())` at this iteration, `stamp` the
`time.strftime("%H:%M:%S")` value, `remove_fails` models `os.remove`.
The dequeued chunk is written to `f"temp_chunk_{int(time.time())}.wav"`,
submitted with the configured defaults, the concatenated segment text is
printed when non-blank, and the temp file is removed.  Inside the generic
`except` handler another `os.remove` is attempted without protection, so a
failure there escapes the loop (the worker thread dies). -/

/-- `f"temp_chunk_{int(time.time())}.wav"`. -/
def chunk_temp_name (now : Nat) : String :=
  "temp_chunk_" ++ toString now ++ ".wav"

/-- Result of processing one dequeued chunk: the printed line (if any),
whether an exception escaped the loop, and the resource events. -/
structure ChunkOutcome where
  emitted : Option String
  crashed : Bool
  events : List Ev
deriving DecidableEq

def transcribe_chunk (engine : Engine) (remove_fails : String → Option String)
    (now : Nat) (stamp : String) (_frames : List Nat) : ChunkOutcome :=
  let temp_filename := chunk_temp_name now
  -- the chunk's bytes are written into the wave file at `temp_filename`
  let evs := [Ev.tempCreate temp_filename,
              Ev.engineCall temp_filename DEFAULT_BEAM_SIZE (some DEFAULT_LANGUAGE)
                DEFAULT_WORD_TIMESTAMPS DEFAULT_VAD_FILTER]
  match engine temp_filename DEFAULT_BEAM_SIZE (some DEFAULT_LANGUAGE)
      DEFAULT_WORD_TIMESTAMPS DEFAULT_VAD_FILTER with
  | Except.error _ =>
    -- generic handler: the file exists, so `os.remove` runs unprotected
    match remove_fails temp_filename with
    | none => ⟨none, false, evs ++ [Ev.tempDelete temp_filename true]⟩
    | some _ => ⟨none, true, evs ++ [Ev.tempDelete temp_filename false]⟩
  | Except.ok out =>
    let text := out.segments.foldl (fun acc s => acc ++ s.text) ""
    let emitted :=
      if strip text ≠ "" then some ("[" ++ stamp ++ "] " ++ strip text) else none
    match remove_fails temp_filename with
    | none => ⟨emitted, false, evs ++ [Ev.tempDelete temp_filename true]⟩
    | some _ =>
      -- `os.remove` raised after the print; the handler retries it
      -- unprotected and the retry raises again, escaping the loop
      ⟨emitted, true,
       evs ++ [Ev.tempDelete temp_filename false, Ev.tempDelete temp_filename false]⟩

/-! ## Streaming worker loop (`_transcribe_audio`, lines 125–172)

`flag t` is the value another thread's writes give `self.is_transcribing` at
iteration `t`; `clock t` and `stamp t` are the wall clock.  The loop
condition is `self.is_transcribing or not self.audio_queue.empty()`; a
`queue.Empty` timeout just re-enters the loop.  The model runs from the
queue contents at stop time (no further producer enqueues), which is the
population the drain claim quantifies over. -/

/-- The worker's visible state: remaining queue, dequeued chunks in order,
printed lines, resource events. -/
structure WorkerState where
  queue : List (List Nat)
  processed : List (List Nat)
  emitted : List String
  events : List Ev
deriving DecidableEq

/-- How a worker run ended: fuel ran out (still looping), the loop condition
went false at iteration `t`, or an exception escaped at iteration `t`. -/
inductive WorkerExit where
  | fuelOut
  | normal (t : Nat)
  | crashed (t : Nat)
deriving DecidableEq

def workerRun (engine : Engine) (remove_fails : String → Option String)
    (clock : Nat → Nat) (stamp : Nat → String) (flag : Nat → Bool) :
    Nat → Nat → WorkerState → WorkerState × WorkerExit
  | 0, _, s => (s, WorkerExit.fuelOut)
  | fuel + 1, t, s =>
    if flag t || !s.queue.isEmpty then
      match s.queue with
      | [] => workerRun engine remove_fails clock stamp flag fuel (t + 1) s
      | c :: rest =>
        let r := transcribe_chunk engine remove_fails (clock t) (stamp t) c
        let s' : WorkerState :=
          ⟨rest, s.processed ++ [c], s.emitted ++ r.emitted.toList, s.events ++ r.events⟩
        if r.crashed then (s', WorkerExit.crashed t)
        else workerRun engine remove_fails clock stamp flag fuel (t + 1) s'
    else (s, WorkerExit.normal t)

/-! ## Capture thread and `stop_recording` (lines 87–123)

Two granularities over the same Python code:
* `stop_recording` embeds the whole method as one state transformer whose
  stream accesses can raise, to settle "safe to call when capture never
  started" (`hasattr(self, 'stream')` guards the close).
* `Sys`/`capStep`/`stopStep` interleave the capture loop's micro-steps with
  the stop call's shared-state effects, to settle "no frame after stop
  returns".  One capture iteration is: check `is_recording`, perform
  `stream.read` (which raises once the stream is closed, logging and
  breaking), append the frame (chunk bookkeeping lives in `recordStep`). -/

/-- The transcriber's fields touched by `stop_recording`: the flags and the
(possibly never created) stream, `some b` meaning the attribute exists with
open-status `b`. -/
structure TranscriberState where
  is_recording : Bool
  is_transcribing : Bool
  stream : Option Bool
  audio_terminated : Bool
deriving DecidableEq

/-- `self.stream.stop_stream(); self.stream.close()` — accessing the
attribute when it was never assigned would raise `AttributeError`. -/
def stream_close (st : Option Bool) : Except String (Option Bool) :=
  match st with
  | none => Except.error "AttributeError: stream"
  | some _ => Except.ok (some false)

/-- `stop_recording`: flip both flags, close the stream only under
`hasattr(self, 'stream')`, terminate PyAudio.  No `join` of
`self.record_thread` appears anywhere in the method.  (The method has no
`try`, so a raising statement would propagate as `Except.error`.) -/
def stop_recording (s : TranscriberState) : Except String TranscriberState :=
  let s1 := { s with is_recording := false, is_transcribing := false }
  if s1.stream.isSome then
    match stream_close s1.stream with
    | Except.error e => Except.error e
    | Except.ok st => Except.ok { s1 with stream := st, audio_terminated := true }
  else Except.ok { s1 with audio_terminated := true }

/-- Program counter of the capture loop `_record_audio`. -/
inductive CapPC where
  | checkFlag
  | readFrame
  | appendFrame
  | done
deriving DecidableEq

/-- Shared and capture-thread-local state for the interleaving model. -/
structure Sys where
  is_recording : Bool
  stream_open : Bool
  stop_returned : Bool
  pc : CapPC
  produced : Nat
deriving DecidableEq

/-- One micro-step of the capture thread. -/
def capStep (s : Sys) : Sys :=
  match s.pc with
  | CapPC.checkFlag =>
    if s.is_recording then { s with pc := CapPC.readFrame }
    else { s with pc := CapPC.done }
  | CapPC.readFrame =>
    if s.stream_open then { s with pc := CapPC.appendFrame }
    else { s with pc := CapPC.done }  -- read raised: logged, loop breaks
  | CapPC.appendFrame =>
    { s with produced := s.produced + 1, pc := CapPC.checkFlag }
  | CapPC.done => s

/-- `n` consecutive capture micro-steps. -/
def capRun : Nat → Sys → Sys
  | 0, s => s
  | n + 1, s => capRun n (capStep s)

/-- The shared-state effect of a completed `stop_recording` call:
`is_recording = False`, stream closed, call returned. -/
def stopStep (s : Sys) : Sys :=
  { s with is_recording := false, stream_open := false, stop_returned := true }

/-! ## Concrete fixtures used by witnesses and counterexamples -/

/-- An engine that always succeeds with one segment " ola". -/
def eng0 : Engine := fun _ _ _ _ _ => Except.ok ⟨[⟨0, 1, " ola", []⟩], ⟨"pt", 9⟩⟩

/-- An engine that always raises. -/
def engBoom : Engine := fun _ _ _ _ _ => Except.error "boom"

/-- Deletion always succeeds. -/
def unlinkOk : String → Option String := fun _ => none

/-- Deletion always raises `OSError("unlink boom")`. -/
def unlinkBoom : String → Option String := fun _ => some "unlink boom"

/-- One `NamedTemporaryFile` path for a given suffix. -/
def ntf0 : String → String := fun suffix => "/tmp/tmpabc" ++ suffix

/-- Per-call `NamedTemporaryFile` paths for a batch. -/
def ntfIdx : Nat → String → String := fun i suffix => "/tmp/tmp" ++ toString i ++ suffix

/-- A transcribing flag that is true only at iteration 0. -/
def flag0 : Nat → Bool := fun v => v == 0

/-- A wall clock frozen inside one second. -/
def clock0 : Nat → Nat := fun _ => 100

/-- A frozen `strftime` stamp. -/
def stamp0 : Nat → String := fun _ => "10:00:00"

/-- The shape of a `tempfile.NamedTemporaryFile(delete=False, suffix=...)`
path: directory and prefix, a per-call token (the library draws a fresh
random token per call, of fixed length), then the caller's suffix. -/
def ntf_path (token suffix : String) : String :=
  String.mk ("/tmp/tmp".data ++ token.data ++ suffix.data)

end Whisper

deriving instance DecidableEq for Except

namespace Whisper

/-! ## Helper lemmas: `rfind` and `splitext_ext` -/

theorem rfind_ge_neg_one (l : List Char) (c : Char) : -1 ≤ rfind l c := by
  induction l with
  | nil => simp [rfind]
  | cons a as ih =>
    simp only [rfind]
    split
    · omega
    · split <;> omega

theorem rfind_eq_neg_one_of_not_mem {l : List Char} {c : Char} (h : c ∉ l) :
    rfind l c = -1 := by
  induction l with
  | nil => simp [rfind]
  | cons a as ih =>
    simp only [List.mem_cons, not_or] at h
    simp only [rfind, ih h.2]
    rw [if_neg (by omega), if_neg (fun hc => h.1 hc.symm)]

theorem rfind_nonneg_of_mem {l : List Char} {c : Char} (h : c ∈ l) :
    0 ≤ rfind l c := by
  induction l with
  | nil => simp at h
  | cons a as ih =>
    simp only [rfind]
    rcases List.mem_cons.mp h with h1 | h2
    · split
      · have := rfind_ge_neg_one as c; omega
      · simp [h1.symm]
    · have := ih h2
      split
      · omega
      · omega

/-- A filename without a dot yields no extension. -/
theorem splitext_ext_of_no_dot {p : List Char} (h : '.' ∉ p) : splitext_ext p = [] := by
  have hd : rfind p '.' = -1 := rfind_eq_neg_one_of_not_mem h
  have hs : -1 ≤ rfind p '/' := rfind_ge_neg_one p '/'
  simp only [splitext_ext, hd]
  rw [if_neg (by omega)]

/-- A filename whose only dot is its leading character yields no extension. -/
theorem splitext_ext_of_leading_dot {rest : List Char} (h : '.' ∉ rest) :
    splitext_ext ('.' :: rest) = [] := by
  have hd : rfind ('.' :: rest) '.' = 0 := by
    simp only [rfind, rfind_eq_neg_one_of_not_mem h]
    norm_num
  by_cases hsep : '/' ∈ rest
  · have hs : 0 ≤ rfind rest '/' := rfind_nonneg_of_mem hsep
    have hs1 : 1 ≤ rfind ('.' :: rest) '/' := by
      simp only [rfind]
      rw [if_pos hs]
      omega
    simp only [splitext_ext, hd]
    rw [if_neg (by omega)]
  · have hs : rfind ('.' :: rest) '/' = -1 := by
      apply rfind_eq_neg_one_of_not_mem
      simp only [List.mem_cons, not_or]
      exact ⟨by decide, hsep⟩
    simp only [splitext_ext, hd, hs]
    rw [if_pos (by omega)]
    have hscan : ext_scan ('.' :: rest) ((-1 : Int) + 1).toNat (0 : Int).toNat = false := by
      simp [ext_scan]
    rw [hscan]
    simp

/-! ## Helper lemmas: the upload handler's validation branches -/

/-- The "no file" rejection: empty filename, no events. -/
theorem transcribe_audio_empty_filename (engine : Engine)
    (u : String → Option String) (ntf : String → String) (file : UploadFile)
    (b : Nat) (l : Option String) (w v : Bool) (h : file.filename = "") :
    transcribe_audio engine u ntf file b l w v =
      (Except.error ⟨400, "Nenhum arquivo enviado"⟩, []) := by
  simp [transcribe_audio, h]

/-- The "unsupported format" rejection: disallowed (lower-cased) extension,
no events. -/
theorem transcribe_audio_bad_extension (engine : Engine)
    (u : String → Option String) (ntf : String → String) (file : UploadFile)
    (b : Nat) (l : Option String) (w v : Bool) (h : file.filename ≠ "")
    (hext : allowed_extensions.contains
      (lower (String.mk (splitext_ext file.filename.data))) = false) :
    transcribe_audio engine u ntf file b l w v =
      (Except.error ⟨400, "Formato de arquivo não suportado. Formatos aceitos: " ++
        String.intercalate ", " allowed_extensions⟩, []) := by
  simp only [transcribe_audio]
  rw [if_neg h, if_pos hext]

/-- Event shape of one upload request: either validation failed and nothing
happened, or exactly one temp file was created and the engine invoked once
with the handler's own option values, followed only by deletion attempts. -/
theorem transcribe_audio_events_shape (engine : Engine) (u : String → Option String)
    (ntf : String → String) (file : UploadFile) (b : Nat) (l : Option String) (w v : Bool) :
    (transcribe_audio engine u ntf file b l w v).2 = [] ∨
    ∃ d, (transcribe_audio engine u ntf file b l w v).2 =
        Ev.tempCreate (ntf (lower (String.mk (splitext_ext file.filename.data)))) ::
          Ev.engineCall (ntf (lower (String.mk (splitext_ext file.filename.data)))) b l w v :: d ∧
        ∀ e ∈ d, ∃ q ok, e = Ev.tempDelete q ok := by
  by_cases h1 : file.filename = ""
  · left
    rw [transcribe_audio_empty_filename _ _ _ _ _ _ _ _ h1]
  · by_cases h2 : allowed_extensions.contains
        (lower (String.mk (splitext_ext file.filename.data))) = false
    · left
      rw [transcribe_audio_bad_extension _ _ _ _ _ _ _ _ h1 h2]
    · right
      set path := ntf (lower (String.mk (splitext_ext file.filename.data))) with hpath
      simp only [transcribe_audio]
      rw [if_neg h1, if_neg h2]
      rcases heng : engine path b l w v with e | out
      · refine ⟨[Ev.tempDelete path ((u path).isNone)], by simp, ?_⟩
        intro x hx
        simp at hx
        exact ⟨_, _, hx⟩
      · rcases hu : u path with _ | msg
        · refine ⟨[Ev.tempDelete path true], by simp [hu], ?_⟩
          intro x hx
          simp at hx
          exact ⟨_, _, hx⟩
        · refine ⟨[Ev.tempDelete path false, Ev.tempDelete path false], by simp [hu], ?_⟩
          intro x hx
          have hx2 : x = Ev.tempDelete path false := by simpa using hx
          exact ⟨path, false, hx2⟩

/-- Every engine invocation of one upload request carries exactly the option
values the handler received. -/
theorem engineCalls_transcribe_audio (engine : Engine) (u : String → Option String)
    (ntf : String → String) (file : UploadFile) (b : Nat) (l : Option String) (w v : Bool) :
    ∀ x ∈ engineCalls (transcribe_audio engine u ntf file b l w v).2, x = (b, l, w, v) := by
  intro x hx
  rcases transcribe_audio_events_shape engine u ntf file b l w v with h | ⟨d, hd, hdel⟩
  · rw [h] at hx
    simp [engineCalls] at hx
  · rw [hd] at hx
    simp only [engineCalls, List.filterMap_cons] at hx
    simp at hx
    rcases hx with hx | hx
    · exact hx
    · exfalso
      rcases hx with ⟨e, he, hsome⟩
      rcases hdel e he with ⟨q, ok, rfl⟩
      simp at hsome

/-- Every temp path of one upload request is the `NamedTemporaryFile` result
for the request's extension. -/
theorem tempPaths_transcribe_audio (engine : Engine) (u : String → Option String)
    (ntf : String → String) (file : UploadFile) (b : Nat) (l : Option String) (w v : Bool) :
    ∀ p ∈ tempPaths (transcribe_audio engine u ntf file b l w v).2,
      p = ntf (lower (String.mk (splitext_ext file.filename.data))) := by
  intro p hp
  rcases transcribe_audio_events_shape engine u ntf file b l w v with h | ⟨d, hd, hdel⟩
  · rw [h] at hp
    simp [tempPaths] at hp
  · rw [hd] at hp
    simp only [tempPaths, List.filterMap_cons] at hp
    simp at hp
    rcases hp with hp | hp
    · exact hp
    · exfalso
      rcases hp with ⟨e, he, hsome⟩
      rcases hdel e he with ⟨q, ok, rfl⟩
      simp at hsome

/-- One dequeued chunk always uses exactly the temp path named after the
whole-second wall clock, whatever the chunk contents are. -/
theorem tempPaths_transcribe_chunk (engine : Engine) (rf : String → Option String)
    (now : Nat) (st : String) (c : List Nat) :
    tempPaths (transcribe_chunk engine rf now st c).events = [chunk_temp_name now] := by
  rcases heng : engine (chunk_temp_name now) DEFAULT_BEAM_SIZE (some DEFAULT_LANGUAGE)
      DEFAULT_WORD_TIMESTAMPS DEFAULT_VAD_FILTER with e | out <;>
    rcases hrf : rf (chunk_temp_name now) with _ | m <;>
      simp [transcribe_chunk, heng, hrf, tempPaths]

/-- What a chunk prints is decided before the temp file is removed: the
emission is unaffected by deletion failures. -/
theorem transcribe_chunk_emitted_indep (engine : Engine)
    (rf rf' : String → Option String) (now : Nat) (st : String) (c : List Nat) :
    (transcribe_chunk engine rf now st c).emitted =
      (transcribe_chunk engine rf' now st c).emitted := by
  rcases heng : engine (chunk_temp_name now) DEFAULT_BEAM_SIZE (some DEFAULT_LANGUAGE)
      DEFAULT_WORD_TIMESTAMPS DEFAULT_VAD_FILTER with e | out <;>
    rcases hrf : rf (chunk_temp_name now) with _ | m <;>
      rcases hrf2 : rf' (chunk_temp_name now) with _ | m2 <;>
        simp [transcribe_chunk, heng, hrf, hrf2]

/-- When deletion never fails, no exception escapes a chunk iteration. -/
theorem transcribe_chunk_no_crash (engine : Engine) (rf : String → Option String)
    (hrf : ∀ p, rf p = none) (now : Nat) (st : String) (c : List Nat) :
    (transcribe_chunk engine rf now st c).crashed = false := by
  rcases heng : engine (chunk_temp_name now) DEFAULT_BEAM_SIZE (some DEFAULT_LANGUAGE)
      DEFAULT_WORD_TIMESTAMPS DEFAULT_VAD_FILTER with e | out <;>
    simp [transcribe_chunk, heng, hrf]

/-! ## Helper lemmas: the batch fold -/

theorem transcribe_batch_foldl_aux (engine : Engine) (u : String → Option String)
    (ntf : Nat → String → String) :
    ∀ (l : List UploadFile) (n : Nat) (acc : List BatchItem × List Ev),
      (List.enumFrom n l).foldl
        (fun acc p =>
          (acc.1 ++ [(batch_item engine u ntf p.1 p.2).1],
           acc.2 ++ (batch_item engine u ntf p.1 p.2).2)) acc =
      (acc.1 ++ (List.enumFrom n l).map (fun p => (batch_item engine u ntf p.1 p.2).1),
       acc.2 ++ ((List.enumFrom n l).map (fun p => (batch_item engine u ntf p.1 p.2).2)).flatten) := by
  intro l
  induction l with
  | nil =>
    intro n acc
    simp [List.enumFrom]
  | cons f fs ih =>
    intro n acc
    simp only [List.enumFrom, List.foldl_cons, List.map_cons, List.flatten]
    rw [ih]
    simp [List.append_assoc]

/-- `transcribe_batch` is the per-file map: element `i` of the results is a
function of file `i` alone, and the events are the per-file events in
order. -/
theorem transcribe_batch_eq (engine : Engine) (u : String → Option String)
    (ntf : Nat → String → String) (files : List UploadFile) :
    transcribe_batch engine u ntf files =
      ((List.enumFrom 0 files).map (fun p => (batch_item engine u ntf p.1 p.2).1),
       ((List.enumFrom 0 files).map (fun p => (batch_item engine u ntf p.1 p.2).2)).flatten) := by
  unfold transcribe_batch
  rw [transcribe_batch_foldl_aux]
  simp

/-! ## Helper lemmas: the worker loop -/

theorem workerRun_succ_nil (engine : Engine) (rf : String → Option String)
    (clock : Nat → Nat) (stamp : Nat → String) (flag : Nat → Bool)
    (n t : Nat) (s : WorkerState) (hq : s.queue = []) (hf : flag t = true) :
    workerRun engine rf clock stamp flag (n + 1) t s =
      workerRun engine rf clock stamp flag n (t + 1) s := by
  rw [workerRun, hq]
  simp [hf]

theorem workerRun_succ_exit (engine : Engine) (rf : String → Option String)
    (clock : Nat → Nat) (stamp : Nat → String) (flag : Nat → Bool)
    (n t : Nat) (s : WorkerState) (hq : s.queue = []) (hf : flag t = false) :
    workerRun engine rf clock stamp flag (n + 1) t s = (s, WorkerExit.normal t) := by
  rw [workerRun, hq]
  simp [hf]

theorem workerRun_succ_cons (engine : Engine) (rf : String → Option String)
    (clock : Nat → Nat) (stamp : Nat → String) (flag : Nat → Bool)
    (n t : Nat) (s : WorkerState) (c : List Nat) (rest : List (List Nat))
    (hq : s.queue = c :: rest) :
    workerRun engine rf clock stamp flag (n + 1) t s =
      (if (transcribe_chunk engine rf (clock t) (stamp t) c).crashed then
        (⟨rest, s.processed ++ [c],
          s.emitted ++ (transcribe_chunk engine rf (clock t) (stamp t) c).emitted.toList,
          s.events ++ (transcribe_chunk engine rf (clock t) (stamp t) c).events⟩,
         WorkerExit.crashed t)
      else
        workerRun engine rf clock stamp flag n (t + 1)
          ⟨rest, s.processed ++ [c],
           s.emitted ++ (transcribe_chunk engine rf (clock t) (stamp t) c).emitted.toList,
           s.events ++ (transcribe_chunk engine rf (clock t) (stamp t) c).events⟩) := by
  rw [workerRun, hq]
  simp

/-- Safety half of the drain property: whenever the loop terminates through
its own condition, the flag is down, the queue is empty, and every chunk of
the initial queue has been dequeued and processed, in order. -/
theorem workerRun_normal_exit (engine : Engine) (rf : String → Option String)
    (clock : Nat → Nat) (stamp : Nat → String) (flag : Nat → Bool) :
    ∀ (fuel t : Nat) (s fin : WorkerState) (u : Nat),
      workerRun engine rf clock stamp flag fuel t s = (fin, WorkerExit.normal u) →
      flag u = false ∧ fin.queue = [] ∧ fin.processed = s.processed ++ s.queue := by
  intro fuel
  induction fuel with
  | zero =>
    intro t s fin u h
    simp [workerRun] at h
  | succ n ih =>
    intro t s fin u h
    rcases hq : s.queue with _ | ⟨c, rest⟩
    · rcases hf : flag t with _ | _
      · rw [workerRun_succ_exit engine rf clock stamp flag n t s hq hf] at h
        injection h with h1 h2
        injection h2 with h3
        subst h1
        subst h3
        exact ⟨hf, hq, by simp⟩
      · rw [workerRun_succ_nil engine rf clock stamp flag n t s hq hf] at h
        have h3 := ih (t + 1) s fin u h
        simpa [hq] using h3
    · rw [workerRun_succ_cons engine rf clock stamp flag n t s c rest hq] at h
      by_cases hcr : (transcribe_chunk engine rf (clock t) (stamp t) c).crashed
      · rw [if_pos hcr] at h
        have h2 := congrArg Prod.snd h
        simp at h2
      · rw [if_neg hcr] at h
        have h3 := ih (t + 1) _ fin u h
        refine ⟨h3.1, h3.2.1, ?_⟩
        rw [h3.2.2]
        simp

/-- Liveness half of the drain property: when deletion never fails and the
flag is eventually down forever, enough fuel makes the loop terminate through
its own condition. -/
theorem workerRun_drains (engine : Engine) (rf : String → Option String)
    (clock : Nat → Nat) (stamp : Nat → String) (flag : Nat → Bool) (T : Nat)
    (hrf : ∀ p, rf p = none) (hflag : ∀ v, T ≤ v → flag v = false) :
    ∀ (fuel t : Nat) (s : WorkerState), (T - t) + s.queue.length < fuel →
      ∃ u fin, workerRun engine rf clock stamp flag fuel t s = (fin, WorkerExit.normal u) := by
  intro fuel
  induction fuel with
  | zero =>
    intro t s hlt
    omega
  | succ n ih =>
    intro t s hlt
    rcases hq : s.queue with _ | ⟨c, rest⟩
    · rcases hf : flag t with _ | _
      · exact ⟨t, s, workerRun_succ_exit engine rf clock stamp flag n t s hq hf⟩
      · have ht : t < T := by
          by_contra hc
          push_neg at hc
          rw [hflag t hc] at hf
          cases hf
        rw [workerRun_succ_nil engine rf clock stamp flag n t s hq hf]
        apply ih (t + 1) s
        rw [hq] at hlt ⊢
        simp at hlt ⊢
        omega
    · rw [workerRun_succ_cons engine rf clock stamp flag n t s c rest hq]
      rw [if_neg (by simp [transcribe_chunk_no_crash engine rf hrf])]
      apply ih (t + 1)
      rw [hq] at hlt
      simp at hlt ⊢
      omega

/-! ## Helper lemmas: the chunk assembler -/

theorem recordFeed_append (fpc : Nat) (s : RecState) (a b : List Nat) :
    recordFeed fpc s (a ++ b) = recordFeed fpc (recordFeed fpc s a) b := by
  simp [recordFeed, List.foldl_append]

/-- Feeding exactly the frames that complete one chunk, starting from a
buffer of `cc` frames, emits that one chunk and resets the accumulator. -/
theorem recordFeed_fill (fpc : Nat) :
    ∀ (rest buf : List Nat) (cc : Nat) (em : List (List Nat)),
      cc + rest.length = fpc → rest ≠ [] →
      recordFeed fpc ⟨buf, cc, em⟩ rest = ⟨[], 0, em ++ [buf ++ rest]⟩ := by
  intro rest
  induction rest with
  | nil =>
    intro buf cc em hlen hne
    cases hne rfl
  | cons d rest2 ih =>
    intro buf cc em hlen hne
    rcases rest2 with _ | ⟨d2, rest3⟩
    · simp only [List.length_cons, List.length_nil] at hlen
      simp only [recordFeed, List.foldl_cons, List.foldl_nil, recordStep]
      rw [if_pos (by omega)]
    · have hlt : cc + 1 < fpc := by
        simp only [List.length_cons] at hlen
        omega
      have hstep : recordStep fpc ⟨buf, cc, em⟩ d = ⟨buf ++ [d], cc + 1, em⟩ := by
        simp only [recordStep]
        rw [if_neg (by omega)]
      rw [show recordFeed fpc ⟨buf, cc, em⟩ (d :: d2 :: rest3) =
            recordFeed fpc (recordStep fpc ⟨buf, cc, em⟩ d) (d2 :: rest3) from rfl,
          hstep,
          ih (buf ++ [d]) (cc + 1) em
            (by simp only [List.length_cons] at hlen ⊢; omega) (by simp)]
      simp

/-- Feeding `k` complete chunks' worth of frames from the reset state emits
exactly `k` chunks, each of `fpc` frames. -/
theorem recordFeed_blocks (fpc : Nat) (hpos : 0 < fpc) :
    ∀ (k : Nat) (ds : List Nat) (em : List (List Nat)), ds.length = k * fpc →
      ∃ chunks, recordFeed fpc ⟨[], 0, em⟩ ds = ⟨[], 0, em ++ chunks⟩ ∧
        chunks.length = k ∧ ∀ c ∈ chunks, c.length = fpc := by
  intro k
  induction k with
  | zero =>
    intro ds em hlen
    have hnil : ds = [] := List.length_eq_zero.mp (by simpa using hlen)
    subst hnil
    exact ⟨[], by simp [recordFeed], rfl, by simp⟩
  | succ k ih =>
    intro ds em hlen
    have hlen2 : ds.length = k * fpc + fpc := by rw [hlen, Nat.succ_mul]
    have htake_len : (ds.take fpc).length = fpc := by
      rw [List.length_take]
      omega
    have htake_ne : ds.take fpc ≠ [] := by
      intro hnil
      rw [hnil] at htake_len
      simp at htake_len
      omega
    have hsplit : ds = ds.take fpc ++ ds.drop fpc := (List.take_append_drop fpc ds).symm
    rw [hsplit, recordFeed_append]
    rw [recordFeed_fill fpc (ds.take fpc) [] 0 em (by rw [htake_len]; omega) htake_ne]
    have hdrop_len : (ds.drop fpc).length = k * fpc := by
      rw [List.length_drop]
      omega
    obtain ⟨chunks, hc, hk, hmem⟩ := ih (ds.drop fpc) (em ++ [[] ++ ds.take fpc]) hdrop_len
    refine ⟨([] ++ ds.take fpc) :: chunks, ?_, by simp [hk], ?_⟩
    · rw [hc]
      simp
    · intro c hcmem
      rcases List.mem_cons.mp hcmem with rfl | hmemc
      · simpa using htake_len
      · exact hmem c hmemc

/-! ## Helper lemmas: the capture loop after stop -/

theorem capRun_succ (n : Nat) (s : Sys) : capRun (n + 1) s = capRun n (capStep s) := rfl

/-- Once the stop effects are visible (flag down, stream closed), the capture
loop appends at most one already-read frame. -/
theorem capRun_produced_bound :
    ∀ (n : Nat) (s : Sys), s.is_recording = false → s.stream_open = false →
      (capRun n s).produced ≤
        s.produced + (if s.pc = CapPC.appendFrame then 1 else 0) := by
  intro n
  induction n with
  | zero =>
    intro s h1 h2
    simp only [capRun]
    split <;> omega
  | succ n ih =>
    intro s h1 h2
    rw [capRun_succ]
    rcases hpc : s.pc with _ | _ | _ | _
    · have hstep : capStep s = { s with pc := CapPC.done } := by
        simp [capStep, hpc, h1]
      rw [hstep]
      have hb := ih { s with pc := CapPC.done } (by simp [h1]) (by simp [h2])
      simp only [hpc] at hb ⊢
      simp at hb ⊢
      omega
    · have hstep : capStep s = { s with pc := CapPC.done } := by
        simp [capStep, hpc, h2]
      rw [hstep]
      have hb := ih { s with pc := CapPC.done } (by simp [h1]) (by simp [h2])
      simp only [hpc] at hb ⊢
      simp at hb ⊢
      omega
    · have hstep : capStep s = { s with produced := s.produced + 1, pc := CapPC.checkFlag } := by
        simp [capStep, hpc]
      rw [hstep]
      have hb := ih { s with produced := s.produced + 1, pc := CapPC.checkFlag }
        (by simp [h1]) (by simp [h2])
      simp only [hpc] at hb ⊢
      simp at hb ⊢
      omega
    · have hstep : capStep s = s := by
        simp [capStep, hpc]
      rw [hstep]
      have hb := ih s h1 h2
      simp only [hpc] at hb ⊢
      simp at hb ⊢
      omega

/-- Once the stop effects are visible, the capture loop halts within two
micro-steps. -/
theorem capRun_halts (s : Sys) (h1 : s.is_recording = false)
    (h2 : s.stream_open = false) : (capRun 2 s).pc = CapPC.done := by
  rcases hpc : s.pc with _ | _ | _ | _ <;>
    simp [capRun, capStep, hpc, h1, h2]

/-! ## Helper lemmas: the batch item projections -/

theorem batch_item_fst (engine : Engine) (u : String → Option String)
    (ntf : Nat → String → String) (i : Nat) (file : UploadFile) :
    (batch_item engine u ntf i file).1 =
      match (transcribe_audio engine u (ntf i) file 5 none false true).1 with
      | Except.ok r => ⟨file.filename, true, some r, none⟩
      | Except.error e => ⟨file.filename, false, none, some (str_of_exc e)⟩ := by
  unfold batch_item
  rcases transcribe_audio engine u (ntf i) file 5 none false true with ⟨e | r, evs⟩ <;> rfl

theorem batch_item_snd (engine : Engine) (u : String → Option String)
    (ntf : Nat → String → String) (i : Nat) (file : UploadFile) :
    (batch_item engine u ntf i file).2 =
      (transcribe_audio engine u (ntf i) file 5 none false true).2 := by
  unfold batch_item
  rcases transcribe_audio engine u (ntf i) file 5 none false true with ⟨e | r, evs⟩ <;> rfl

theorem engineCalls_append (a b : List Ev) :
    engineCalls (a ++ b) = engineCalls a ++ engineCalls b := by
  simp [engineCalls, List.filterMap_append]

theorem engineCalls_flatten (L : List (List Ev)) :
    engineCalls L.flatten = (L.map engineCalls).flatten := by
  induction L with
  | nil => simp [engineCalls]
  | cons a L ih =>
    simp only [List.flatten_cons, engineCalls_append, ih, List.map_cons]

/-- Distinct same-length per-call tokens give distinct temp paths, whatever
the suffixes (the uniqueness guarantee of the `tempfile` mechanism). -/
theorem ntf_path_ne (t1 t2 s1 s2 : String) (htok : t1 ≠ t2)
    (hlen : t1.length = t2.length) : ntf_path t1 s1 ≠ ntf_path t2 s2 := by
  intro h
  apply htok
  have hdata : "/tmp/tmp".data ++ (t1.data ++ s1.data) =
      "/tmp/tmp".data ++ (t2.data ++ s2.data) := by
    have h0 := congrArg String.data h
    simpa [ntf_path, List.append_assoc] using h0
  have h2 : t1.data ++ s1.data = t2.data ++ s2.data :=
    (List.append_inj hdata rfl).2
  have hlen2 : t1.data.length = t2.data.length := hlen
  have h3 : t1.data = t2.data := (List.append_inj h2 hlen2).1
  rcases t1 with ⟨d1⟩
  rcases t2 with ⟨d2⟩
  simp only at h3
  exact congrArg String.mk h3

/-! ## Claims -/

set_option maxRecDepth 10000 in
/-- C1 counterexample: with the live parameters (16000, 1024, 3 s) the code's
threshold is `int(16000 / 1024 * 3) = 46`, the floor, while the claim's
ceiling is 47: feeding 46 frames already emits one chunk, before the claimed
threshold is ever reached. -/
theorem C1_counterexample :
    frames_per_chunk = 46 ∧ framesPerChunkSpecCeil = 47 ∧
      (recordFeed frames_per_chunk ⟨[], 0, []⟩ (List.range 46)).emitted.length = 1 ∧
      46 < framesPerChunkSpecCeil :=
  ⟨by decide, by decide, by decide, by decide⟩

/-- C1 (amended): the chunk assembler emits exactly when the accumulated
frame count reaches `int(sampleRate / frameSize * chunkSeconds)` — the floor,
46 at the live settings, not the ceiling — each emitted chunk contains
exactly that many frames, and any N = k·framesPerChunk frames fed from the
initial state emit exactly k chunks. -/
theorem C1_floor_threshold :
    (∀ (s : RecState) (d : Nat),
      (recordStep frames_per_chunk s d).emitted ≠ s.emitted ↔
        frames_per_chunk ≤ s.chunk_count + 1) ∧
    (∀ (k : Nat) (ds : List Nat), ds.length = k * frames_per_chunk →
      (recordFeed frames_per_chunk ⟨[], 0, []⟩ ds).emitted.length = k ∧
      ∀ c ∈ (recordFeed frames_per_chunk ⟨[], 0, []⟩ ds).emitted,
        c.length = frames_per_chunk) := by
  constructor
  · intro s d
    constructor
    · intro hne
      by_contra hlt
      push_neg at hlt
      apply hne
      simp only [recordStep]
      rw [if_neg (by omega)]
    · intro hge
      simp only [recordStep]
      rw [if_pos hge]
      intro hcontra
      have := congrArg List.length hcontra
      simp at this
  · intro k ds hlen
    obtain ⟨chunks, heq, hk, hmem⟩ :=
      recordFeed_blocks frames_per_chunk (by decide) k ds [] hlen
    rw [heq]
    exact ⟨by simp [hk], by simpa using hmem⟩

set_option maxRecDepth 10000 in
/-- C1 witness: the amended theorem applied to one block of 46 concrete
frames. -/
theorem C1_floor_threshold_witness :
    (List.range 46).length = 1 * frames_per_chunk ∧
      (recordFeed frames_per_chunk ⟨[], 0, []⟩ (List.range 46)).emitted.length = 1 :=
  ⟨by decide, (C1_floor_threshold.2 1 (List.range 46) (by decide)).1⟩

/-- C2: the upload handler never consults the payload size, so
`MAX_FILE_SIZE` is not enforced: the outcome is invariant under the payload
size, and an oversize payload (`MAX_FILE_SIZE + 1` bytes) is written to the
temp file, submitted to the engine, and answered as a success — not rejected
with a validation error. -/
theorem C2_size_never_checked :
    (∀ (engine : Engine) (u : String → Option String) (ntf : String → String)
        (name : String) (s1 s2 b : Nat) (l : Option String) (w v : Bool),
      transcribe_audio engine u ntf ⟨name, s1⟩ b l w v =
        transcribe_audio engine u ntf ⟨name, s2⟩ b l w v) ∧
    (transcribe_audio eng0 unlinkOk ntf0 ⟨"big.mp3", MAX_FILE_SIZE + 1⟩
        5 none false true).1 =
      Except.ok ⟨"ola", "pt", 9, [⟨0, 1, " ola", none⟩]⟩ ∧
    tempPaths (transcribe_audio eng0 unlinkOk ntf0 ⟨"big.mp3", MAX_FILE_SIZE + 1⟩
        5 none false true).2 = ["/tmp/tmpabc.mp3"] ∧
    engineCalls (transcribe_audio eng0 unlinkOk ntf0 ⟨"big.mp3", MAX_FILE_SIZE + 1⟩
        5 none false true).2 = [(5, none, false, true)] :=
  ⟨fun _ _ _ _ _ _ _ _ _ _ => rfl, by decide, by decide, by decide⟩

/-- C3 counterexample: `stop_recording` only flips the flags and closes the
stream; the capture thread is not joined, so a frame whose device read had
already completed when stop ran is still appended after stop has returned. -/
theorem C3_counterexample :
    (stopStep (capRun 2 ⟨true, true, false, CapPC.checkFlag, 0⟩)).stop_returned = true ∧
    (stopStep (capRun 2 ⟨true, true, false, CapPC.checkFlag, 0⟩)).produced = 0 ∧
    (capRun 1 (stopStep (capRun 2 ⟨true, true, false, CapPC.checkFlag, 0⟩))).produced = 1 :=
  ⟨by decide, by decide, by decide⟩

/-- C3 (amended): `stop_recording` is safe to call even when capture never
started (the stream access is guarded, the call never raises), and after its
effects are visible the capture loop appends at most the one frame already
read and halts within two further micro-steps — but since the thread is not
joined, that one frame can land after stop has returned. -/
theorem C3_stop_behaviour :
    (∀ s : TranscriberState, stop_recording s =
      Except.ok ⟨false, false, (if s.stream.isSome then some false else none), true⟩) ∧
    (∀ s : Sys, s.is_recording = false → s.stream_open = false →
      (∀ n, (capRun n s).produced ≤ s.produced + 1) ∧
      (capRun 2 s).pc = CapPC.done) := by
  constructor
  · intro s
    rcases hs : s.stream with _ | b <;>
      simp [stop_recording, stream_close, hs]
  · intro s h1 h2
    refine ⟨fun n => ?_, capRun_halts s h1 h2⟩
    have hb := capRun_produced_bound n s h1 h2
    split at hb <;> omega

/-- C3 witness: the amended theorem applied to the never-started state and to
a post-stop state with one in-flight frame. -/
theorem C3_stop_behaviour_witness :
    stop_recording ⟨true, true, none, false⟩ = Except.ok ⟨false, false, none, true⟩ ∧
    (capRun 5 ⟨false, false, true, CapPC.appendFrame, 0⟩).produced ≤ 0 + 1 :=
  ⟨C3_stop_behaviour.1 ⟨true, true, none, false⟩,
   (C3_stop_behaviour.2 ⟨false, false, true, CapPC.appendFrame, 0⟩ rfl rfl).1 5⟩

/-- C4 counterexample: when `os.remove` raises inside the exception handler
the exception escapes the worker loop: the run ends at iteration 0 with the
transcribing flag still true and chunk `[2]` still queued — that chunk is
never dequeued, refuting "exits only when the flag is false and the queue is
empty" and "every queued chunk is processed". -/
theorem C4_counterexample :
    workerRun engBoom (fun _ => some "locked") clock0 stamp0 (fun _ => true) 10 0
        ⟨[[1], [2]], [], [], []⟩ =
      (⟨[[2]], [[1]], [],
        [Ev.tempCreate "temp_chunk_100.wav",
         Ev.engineCall "temp_chunk_100.wav" 1 (some "pt") false true,
         Ev.tempDelete "temp_chunk_100.wav" false]⟩,
       WorkerExit.crashed 0) := by
  decide

/-- C4 (amended): provided temp-file deletion never raises, the worker loop
exits only through its own condition — transcribing flag false AND queue
empty — and at that point every chunk of the queue has been dequeued and
processed in order; when the flag is eventually false forever, enough fuel
always reaches that exit.  (A deletion failure inside the exception handler
instead kills the worker with chunks still queued.) -/
theorem C4_drain (engine : Engine) (rf : String → Option String)
    (clock : Nat → Nat) (stamp : Nat → String) (flag : Nat → Bool) :
    (∀ (fuel t : Nat) (s fin : WorkerState) (u : Nat),
      workerRun engine rf clock stamp flag fuel t s = (fin, WorkerExit.normal u) →
      flag u = false ∧ fin.queue = [] ∧ fin.processed = s.processed ++ s.queue) ∧
    (∀ (T fuel t : Nat) (s : WorkerState),
      (∀ p, rf p = none) → (∀ v, T ≤ v → flag v = false) →
      (T - t) + s.queue.length < fuel →
      ∃ u fin, workerRun engine rf clock stamp flag fuel t s = (fin, WorkerExit.normal u) ∧
        flag u = false ∧ fin.queue = [] ∧ fin.processed = s.processed ++ s.queue) := by
  constructor
  · exact workerRun_normal_exit engine rf clock stamp flag
  · intro T fuel t s hrf hflag hfuel
    obtain ⟨u, fin, hrun⟩ :=
      workerRun_drains engine rf clock stamp flag T hrf hflag fuel t s hfuel
    exact ⟨u, fin, hrun, workerRun_normal_exit engine rf clock stamp flag fuel t s fin u hrun⟩

/-- C4 witness: a concrete queue of two chunks, flag dropped after iteration
0, deletion reliable: the loop drains both chunks, then exits. -/
theorem C4_drain_witness :
    (∀ p : String, unlinkOk p = none) ∧ (∀ v : Nat, 1 ≤ v → flag0 v = false) ∧
    (1 - 0) + ([[7], [8]] : List (List Nat)).length < 5 ∧
    ∃ u fin, workerRun eng0 unlinkOk clock0 stamp0 flag0 5 0 ⟨[[7], [8]], [], [], []⟩ =
      (fin, WorkerExit.normal u) ∧ flag0 u = false ∧ fin.queue = [] ∧
      fin.processed = [] ++ [[7], [8]] :=
  ⟨fun _ => rfl, fun v hv => by simp [flag0]; omega, by decide,
   (C4_drain eng0 unlinkOk clock0 stamp0 flag0).2 1 5 0 ⟨[[7], [8]], [], [], []⟩
     (fun _ => rfl) (fun v hv => by simp [flag0]; omega) (by decide)⟩

/-- C5 counterexample: same request, same succeeding engine — when the
cleanup unlink works the upload returns the transcription, but when it fails
the handler answers 500 carrying the cleanup error: the successful
transcription is not returned, refuting "never changes the primary
outcome". -/
theorem C5_counterexample :
    (transcribe_audio eng0 unlinkOk ntf0 ⟨"a.mp3", 3⟩ 5 none false true).1 =
      Except.ok ⟨"ola", "pt", 9, [⟨0, 1, " ola", none⟩]⟩ ∧
    (transcribe_audio eng0 unlinkBoom ntf0 ⟨"a.mp3", 3⟩ 5 none false true).1 =
      Except.error ⟨500, "Erro na transcrição: unlink boom"⟩ :=
  ⟨by decide, by decide⟩

/-- C5 (amended): a deletion failure never masks an inference error — the
500 carries the engine's message whatever `os.unlink` does — and the
streaming worker prints before cleaning up, so deletion failures never change
the emission; but on the upload success path a deletion failure is caught by
the generic handler and reported as a 500 transcription error instead of the
successful result. -/
theorem C5_cleanup_swallowing (engine : Engine) (u : String → Option String)
    (ntf : String → String) (file : UploadFile) (b : Nat) (l : Option String)
    (w v : Bool) (msg : String) (h1 : file.filename ≠ "")
    (h2 : allowed_extensions.contains
      (lower (String.mk (splitext_ext file.filename.data))) = true) :
    (engine (ntf (lower (String.mk (splitext_ext file.filename.data)))) b l w v =
        Except.error msg →
      (transcribe_audio engine u ntf file b l w v).1 =
        Except.error ⟨500, "Erro na transcrição: " ++ msg⟩) ∧
    (∀ (engine2 : Engine) (rf rf2 : String → Option String) (now : Nat)
        (st : String) (c : List Nat),
      (transcribe_chunk engine2 rf now st c).emitted =
        (transcribe_chunk engine2 rf2 now st c).emitted) ∧
    (∀ out, engine (ntf (lower (String.mk (splitext_ext file.filename.data)))) b l w v =
        Except.ok out →
      u (ntf (lower (String.mk (splitext_ext file.filename.data)))) = some msg →
      (transcribe_audio engine u ntf file b l w v).1 =
        Except.error ⟨500, "Erro na transcrição: " ++ msg⟩) := by
  refine ⟨?_, fun engine2 rf rf2 now st c =>
    transcribe_chunk_emitted_indep engine2 rf rf2 now st c, ?_⟩
  · intro heng
    simp only [transcribe_audio]
    rw [if_neg h1, if_neg (by simp only [h2]; decide), heng]
  · intro out heng hu
    simp only [transcribe_audio]
    rw [if_neg h1, if_neg (by simp only [h2]; decide), heng, hu]

/-- C5 witness: the amended theorem at a failing engine with failing unlink —
the reported error is the inference error, not the cleanup one. -/
theorem C5_cleanup_swallowing_witness :
    (("a.mp3" : String) ≠ "") ∧
    (transcribe_audio engBoom unlinkBoom ntf0 ⟨"a.mp3", 3⟩ 5 none false true).1 =
      Except.error ⟨500, "Erro na transcrição: boom"⟩ :=
  ⟨by decide,
   (C5_cleanup_swallowing engBoom unlinkBoom ntf0 ⟨"a.mp3", 3⟩ 5 none false true "boom"
     (by decide) (by decide)).1 rfl⟩

/-- C6: the upload validation order — an empty filename is rejected first
with the "no file" 400; otherwise a filename whose lower-cased extracted
extension is outside the allow-list is rejected with the "unsupported format"
400 naming the allowed formats; both rejections produce no events: no temp
file, no engine call. -/
theorem C6_validation_order (engine : Engine) (u : String → Option String)
    (ntf : String → String) (file : UploadFile) (b : Nat) (l : Option String)
    (w v : Bool) :
    (file.filename = "" →
      transcribe_audio engine u ntf file b l w v =
        (Except.error ⟨400, "Nenhum arquivo enviado"⟩, [])) ∧
    (file.filename ≠ "" →
      allowed_extensions.contains
        (lower (String.mk (splitext_ext file.filename.data))) = false →
      transcribe_audio engine u ntf file b l w v =
        (Except.error ⟨400, "Formato de arquivo não suportado. Formatos aceitos: " ++
          String.intercalate ", " allowed_extensions⟩, [])) :=
  ⟨transcribe_audio_empty_filename engine u ntf file b l w v,
   transcribe_audio_bad_extension engine u ntf file b l w v⟩

/-- C6 witness: the empty filename and a `.txt` upload, both rejected with
the corresponding 400 and no events. -/
theorem C6_validation_order_witness :
    transcribe_audio engBoom unlinkOk ntf0 ⟨"", 10⟩ 5 none false true =
      (Except.error ⟨400, "Nenhum arquivo enviado"⟩, []) ∧
    transcribe_audio engBoom unlinkOk ntf0 ⟨"x.txt", 10⟩ 5 none false true =
      (Except.error ⟨400, "Formato de arquivo não suportado. Formatos aceitos: " ++
        String.intercalate ", " allowed_extensions⟩, []) :=
  ⟨(C6_validation_order engBoom unlinkOk ntf0 ⟨"", 10⟩ 5 none false true).1 rfl,
   (C6_validation_order engBoom unlinkOk ntf0 ⟨"x.txt", 10⟩ 5 none false true).2
     (by decide) (by decide)⟩

/-- C7 counterexample: two distinct chunks dequeued within the same wall
clock second are both written to `temp_chunk_100.wav` — the streaming temp
name collides. -/
theorem C7_counterexample :
    tempPaths (workerRun eng0 unlinkOk clock0 stamp0 (fun _ => false) 5 0
        ⟨[[1], [2]], [], [], []⟩).1.events =
      ["temp_chunk_100.wav", "temp_chunk_100.wav"] ∧
    ([1] : List Nat) ≠ [2] :=
  ⟨by decide, by decide⟩

/-- C7 (amended): upload requests draw their temp paths from distinct calls
of the uniqueness-guaranteeing `NamedTemporaryFile` mechanism (distinct
fixed-length per-call tokens), so two distinct requests always use distinct
paths; a streamed chunk's temp path, in contrast, depends only on the
whole-second wall clock — any two chunks processed in the same second share
one path. -/
theorem C7_temp_path_uniqueness (engine engine2 : Engine)
    (u u2 : String → Option String) (t1 t2 : String)
    (htok : t1 ≠ t2) (hlen : t1.length = t2.length) :
    (∀ (f1 f2 : UploadFile) (b1 b2 : Nat) (l1 l2 : Option String) (w1 w2 v1 v2 : Bool),
      ∀ p ∈ tempPaths (transcribe_audio engine u (ntf_path t1) f1 b1 l1 w1 v1).2,
      ∀ q ∈ tempPaths (transcribe_audio engine2 u2 (ntf_path t2) f2 b2 l2 w2 v2).2,
        p ≠ q) ∧
    (∀ (now : Nat) (st1 st2 : String) (c1 c2 : List Nat)
        (rf1 rf2 : String → Option String),
      tempPaths (transcribe_chunk engine rf1 now st1 c1).events =
        tempPaths (transcribe_chunk engine2 rf2 now st2 c2).events) := by
  constructor
  · intro f1 f2 b1 b2 l1 l2 w1 w2 v1 v2 p hp q hq
    rw [tempPaths_transcribe_audio engine u (ntf_path t1) f1 b1 l1 w1 v1 p hp,
        tempPaths_transcribe_audio engine2 u2 (ntf_path t2) f2 b2 l2 w2 v2 q hq]
    exact ntf_path_ne t1 t2 _ _ htok hlen
  · intro now st1 st2 c1 c2 rf1 rf2
    rw [tempPaths_transcribe_chunk, tempPaths_transcribe_chunk]

/-- C7 witness: two uploads with distinct tokens "aa"/"bb" get the distinct
paths `/tmp/tmpaa.mp3` and `/tmp/tmpbb.wav`. -/
theorem C7_temp_path_uniqueness_witness :
    (("aa" : String) ≠ "bb") ∧ ("aa" : String).length = ("bb" : String).length ∧
    ("/tmp/tmpaa.mp3" : String) ≠ "/tmp/tmpbb.wav" :=
  ⟨by decide, by decide,
   (C7_temp_path_uniqueness eng0 eng0 unlinkOk unlinkOk "aa" "bb"
       (by decide) (by decide)).1
     ⟨"a.mp3", 1⟩ ⟨"b.wav", 2⟩ 5 5 none none false false true true
     "/tmp/tmpaa.mp3" (by decide) "/tmp/tmpbb.wav" (by decide)⟩

/-- C8: the batch endpoint returns one result per file, in input order, each
carrying that file's filename and either success with its transcription or
failure with the stringified error; element i is a function of file i alone
(per-file isolation), and the list length always equals the number of
files. -/
theorem C8_batch_partial_failure (engine : Engine) (u : String → Option String)
    (ntf : Nat → String → String) (files : List UploadFile) :
    (transcribe_batch engine u ntf files).1 =
      (List.enumFrom 0 files).map (fun p =>
        match (transcribe_audio engine u (ntf p.1) p.2 5 none false true).1 with
        | Except.ok r => ⟨p.2.filename, true, some r, none⟩
        | Except.error e => ⟨p.2.filename, false, none, some (str_of_exc e)⟩) ∧
    (transcribe_batch engine u ntf files).1.length = files.length := by
  have h1 : (transcribe_batch engine u ntf files).1 =
      (List.enumFrom 0 files).map (fun p => (batch_item engine u ntf p.1 p.2).1) := by
    rw [transcribe_batch_eq]
  constructor
  · rw [h1]
    exact congrArg (fun f => List.map f (List.enumFrom 0 files))
      (funext fun p => batch_item_fst engine u ntf p.1 p.2)
  · rw [h1]
    simp

/-- C9: every engine invocation of the batch endpoint uses the handler's own
defaults — beam size 5, language None (automatic detection), word timestamps
off, VAD filter on — and any accompanying form fields are dropped by the
route, leaving the outcome untouched. -/
theorem C9_batch_default_options (engine : Engine) (u : String → Option String)
    (ntf : Nat → String → String) (form form2 : FormFields) (files : List UploadFile) :
    (∀ x ∈ engineCalls (transcribe_batch_route engine u ntf form files).2,
      x = (5, none, false, true)) ∧
    transcribe_batch_route engine u ntf form files =
      transcribe_batch_route engine u ntf form2 files := by
  refine ⟨?_, rfl⟩
  intro x hx
  rw [transcribe_batch_route, transcribe_batch_eq] at hx
  simp only [engineCalls_flatten, List.map_map, List.mem_flatten] at hx
  obtain ⟨blk, hblk, hxblk⟩ := hx
  obtain ⟨p, hp, rfl⟩ := List.mem_map.mp hblk
  have hsnd := batch_item_snd engine u ntf p.1 p.2
  simp only [Function.comp_apply, hsnd] at hxblk
  exact engineCalls_transcribe_audio engine u (ntf p.1) p.2 5 none false true x hxblk

/-- C10: a non-empty filename from which no extension can be extracted — no
dot at all, or a dot only as its leading character — yields the empty
extension, so the upload is rejected with the unsupported-format 400 (not the
no-file 400) and no temp file or engine call happens. -/
theorem C10_no_extractable_extension (engine : Engine) (u : String → Option String)
    (ntf : String → String) (file : UploadFile) (b : Nat) (l : Option String)
    (w v : Bool) (hne : file.filename ≠ "")
    (hdot : ('.' ∉ file.filename.data) ∨
      ∃ rest, file.filename.data = '.' :: rest ∧ '.' ∉ rest) :
    splitext_ext file.filename.data = [] ∧
    transcribe_audio engine u ntf file b l w v =
      (Except.error ⟨400, "Formato de arquivo não suportado. Formatos aceitos: " ++
        String.intercalate ", " allowed_extensions⟩, []) := by
  have hext : splitext_ext file.filename.data = [] := by
    rcases hdot with h | ⟨rest, hr, hnr⟩
    · exact splitext_ext_of_no_dot h
    · rw [hr]
      exact splitext_ext_of_leading_dot hnr
  refine ⟨hext, ?_⟩
  apply transcribe_audio_bad_extension engine u ntf file b l w v hne
  rw [hext]
  decide

/-- C10 witness: the filenames "audio" (no dot) and ".mp3" (leading dot
only), both rejected with the unsupported-format 400 and no events. -/
theorem C10_no_extractable_extension_witness :
    (transcribe_audio engBoom unlinkOk ntf0 ⟨"audio", 4⟩ 5 none false true =
      (Except.error ⟨400, "Formato de arquivo não suportado. Formatos aceitos: " ++
        String.intercalate ", " allowed_extensions⟩, [])) ∧
    (transcribe_audio engBoom unlinkOk ntf0 ⟨".mp3", 4⟩ 5 none false true =
      (Except.error ⟨400, "Formato de arquivo não suportado. Formatos aceitos: " ++
        String.intercalate ", " allowed_extensions⟩, [])) :=
  ⟨(C10_no_extractable_extension engBoom unlinkOk ntf0 ⟨"audio", 4⟩ 5 none false true
      (by decide) (Or.inl (by decide))).2,
   (C10_no_extractable_extension engBoom unlinkOk ntf0 ⟨".mp3", 4⟩ 5 none false true
      (by decide) (Or.inr ⟨['m', 'p', '3'], by decide, by decide⟩)).2⟩

end Whisper
